import Mathlib

/-!
# nwg-menu: a verification development of `main.go`

The program is a popup application menu.  `main.go` holds the program entry
point: flag handling, the single-instance toggle, locale selection, the
location of the pinned cache file, the catalog build, the layer-shell window
placement and the key handler.

Go strings are modelled by Lean `String`s; the library routines that scan a
string for the ASCII bytes `.` and `/` are modelled on the character list,
which agrees with the byte-wise scan on every UTF-8 string (an ASCII byte
never occurs inside a multi-byte sequence).
-/

namespace NwgMenu

/-! ## Categories (`main.go`, lines 39-49) -/

/-- The fixed array `categoryNames` of `main.go`. -/
def categoryNames : List String :=
  [ "utility",
    "development",
    "game",
    "graphics",
    "internet-and-network",
    "office",
    "audio-video",
    "system-tools",
    "other" ]

/-! ## Go library: `strings.Split` with a one-byte separator -/

namespace strings

/-- Go `len(s)`: the number of bytes of the string. -/
def len (s : List Char) : Nat := (String.mk s).utf8ByteSize

/-- Go `strings.Count(s, sep)` for a separator of length one: the number of
occurrences of the byte. -/
def Count (s : List Char) (sep : Char) : Nat := s.count sep

/-- Go `strings.Index(s, sep)` for a separator of length one: the position of
the first occurrence, `none` for Go's `-1`. -/
def Index : List Char → Char → Option Nat
  | [], _ => none
  | c :: rest, sep => if c = sep then some 0 else (Index rest sep).map (· + 1)

/-- The loop of Go `genSplit` (with `sepSave = 0`): `k` is the number of
iterations left (`n - i`); each iteration cuts the slice before the next
separator off `s`; the last slot receives the rest. -/
def genSplitLoop : Nat → List Char → Char → List (List Char)
  | 0, s, _ => [s]
  | k + 1, s, sep =>
    match Index s sep with
    | none => [s]
    | some m => s.take m :: genSplitLoop k (s.drop (m + 1)) sep

/-- Go `genSplit(s, sep, 0, -1)` for a separator of length one:
`n = Count(s, sep) + 1`, clamped to `len(s) + 1`, then `n--` and the loop. -/
def genSplit (s : List Char) (sep : Char) : List (List Char) :=
  let n := Count s sep + 1
  let n := if n > len s + 1 then len s + 1 else n
  genSplitLoop (n - 1) s sep

/-- Go `strings.Split(s, sep)` for a separator `sep` of length one. -/
def Split (s : String) (sep : Char) : List String :=
  (genSplit s.data sep).map String.mk

end strings

/-! ## Locale selection (`main.go`, lines 116 and 164-168) -/

/-- Lines 165-167 of `main`: the value of `*lang` after the LANGUAGE block,
given the value `flagLang` of the `-lang` flag and the value `envLANG` of
`os.Getenv("LANG")`.  `none` is the run-time panic of the index expression
`[0]` on an empty slice. -/
def selectLang (flagLang envLANG : String) : Option String :=
  if flagLang = "" ∧ envLANG ≠ "" then
    (strings.Split envLANG '.')[0]?
  else
    some flagLang

/-- The prefix of a string before its first `.` (the whole string when it has
none); the specification side of the locale claim. -/
def beforeFirstDot (e : String) : String :=
  String.mk (e.data.takeWhile (· ≠ '.'))

/-- The language tag as the specification words it: the explicit override
when given, else the part of `LANG` before its first `.`, else empty. -/
def effectiveLang (f e : String) : String :=
  if f ≠ "" then f else if e ≠ "" then beforeFirstDot e else ""

/-! ## Go library: `strconv.Atoi` -/

namespace strconv

/-- The value of a decimal digit byte, `none` for any other byte
(`ch -= '0'; if ch > 9` in Go). -/
def digitVal (c : Char) : Option Nat :=
  if '0' ≤ c ∧ c ≤ '9' then some (c.toNat - '0'.toNat) else none

/-- The digit loop `n = n*10 + int(ch)`; `none` is Go's syntax error. -/
def parseDigits : List Char → Nat → Option Nat
  | [], n => some n
  | c :: cs, n =>
    match digitVal c with
    | none => none
    | some d => parseDigits cs (n * 10 + d)

/-- Go `strconv.IntSize` on the 64-bit platforms the program is built for. -/
def intSize : Nat := 64

/-- Go `strconv.Atoi(s)`: an optional sign `+` or `-`, then at least one
decimal digit and nothing else; `none` stands for a non-nil error (syntax
error, or range error when the value does not fit the type `int`).  The fast
and the slow path of the Go routine agree on this result. -/
def Atoi (s : String) : Option Int :=
  let cs := s.data
  let neg := cs.head? = some '-'
  let body := if cs.head? = some '-' ∨ cs.head? = some '+' then cs.tail else cs
  if body = [] then none
  else
    match parseDigits body 0 with
    | none => none
    | some n =>
      let v : Int := if neg then -(n : Int) else (n : Int)
      if -(2 ^ (intSize - 1) : Int) ≤ v ∧ v ≤ 2 ^ (intSize - 1) - 1 then some v else none

end strconv

/-! ## Go library: `path/filepath` (Unix) -/

namespace filepath

/-- Go `filepath.Separator` on Unix. -/
def Separator : Char := '/'

/-- Go `os.IsPathSeparator`. -/
def IsPathSeparator (c : Char) : Bool := c == Separator

/-- The backtracking of the `..` case of `Clean`:
`out.w--; for out.w > dotdot && !os.IsPathSeparator(out.index(out.w)) { out.w-- }`.
The buffer is kept with the most recently written byte first, so that `w` is
its length and `out.index(out.w)` after a decrement is the byte just removed. -/
def backtrack (dotdot : Nat) : List Char → List Char
  | [] => []
  | c :: rest =>
    if rest.length > dotdot && !IsPathSeparator c then backtrack dotdot rest else rest

/-- The main loop `for r < n` of Go `filepath.Clean`.  `p` is `path[r:]`,
`out` the bytes written so far (most recent first), `dotdot` the index where
`..` must stop.  Every iteration consumes at least one byte of `p`, so a
number `fuel` of iterations not below the length of `p` runs the loop to its
end. -/
def cleanLoop (rooted : Bool) : Nat → List Char → List Char → Nat → List Char
  | 0, _, out, _ => out
  | fuel + 1, p, out, dotdot =>
    match p with
    | [] => out
    | c :: rest =>
      if IsPathSeparator c then
        -- empty path element
        cleanLoop rooted fuel rest out dotdot
      else if c == '.' && (rest.isEmpty || (rest.head?.map IsPathSeparator).getD false) then
        -- . element
        cleanLoop rooted fuel rest out dotdot
      else if c == '.' && rest.head? == some '.' &&
          (rest.tail.isEmpty || (rest.tail.head?.map IsPathSeparator).getD false) then
        -- .. element: remove to last separator
        if out.length > dotdot then
          cleanLoop rooted fuel rest.tail (backtrack dotdot out) dotdot
        else if !rooted then
          let out1 := if out.length > 0 then Separator :: out else out
          let out2 := '.' :: '.' :: out1
          cleanLoop rooted fuel rest.tail out2 out2.length
        else
          cleanLoop rooted fuel rest.tail out dotdot
      else
        -- real path element: add slash if needed, copy element
        let out1 :=
          if rooted && out.length != 1 || !rooted && out.length != 0 then Separator :: out
          else out
        let elem := (c :: rest).takeWhile (fun b => !IsPathSeparator b)
        cleanLoop rooted fuel ((c :: rest).dropWhile (fun b => !IsPathSeparator b))
          (elem.reverse ++ out1) dotdot

/-- Go `filepath.Clean` on Unix (no volume name, `FromSlash` is the
identity), on the bytes of the path. -/
def cleanChars (path : List Char) : List Char :=
  match path with
  | [] => ['.']
  | c :: rest =>
    let rooted := IsPathSeparator c
    let out :=
      if rooted then cleanLoop rooted rest.length rest [Separator] 1
      else cleanLoop rooted (c :: rest).length (c :: rest) [] 0
    -- turn empty string into "."
    if out.length = 0 then ['.'] else out.reverse

/-- Go `filepath.Clean`. -/
def Clean (path : String) : String := String.mk (cleanChars path.data)

/-- Go `strings.Join(elems, "/")`. -/
def joinSlash : List String → String
  | [] => ""
  | [e] => e
  | e :: es => e ++ "/" ++ joinSlash es

/-- Go `filepath.Join` on Unix: leading empty elements are ignored, the rest
is joined with `/` and cleaned; the result is empty when every element is. -/
def Join : List String → String
  | [] => ""
  | e :: es => if e ≠ "" then Clean (joinSlash (e :: es)) else Join es

/-- Go `filepath.Base` on Unix: trailing slashes are stripped, then the part
after the last remaining slash is taken. -/
def Base (path : String) : String :=
  if path = "" then "."
  else
    let stripped := path.data.reverse.dropWhile IsPathSeparator
    let last := (stripped.takeWhile (fun b => !IsPathSeparator b)).reverse
    if last = [] then String.singleton Separator else String.mk last

end filepath


/-! ## The entry point `main` (`main.go`, lines 102-343)

`main` is a straight-line sequence of calls into the operating system, into
other files of the program and into GTK, with a handful of branches.  It is
modelled as a function from everything it reads (flags, environment, results
of the calls) to the sequence of calls it makes, the way the run ends and the
values it leaves in the global variables. -/

/-- The command-line flags (lines 103-118). -/
structure Flags where
  cssFileName : String
  targetOutput : String
  displayVersion : Bool
  autohide : Bool
  valign : String
  halign : String
  marginTop : Int
  marginLeft : Int
  marginRight : Int
  marginBottom : Int
  iconSizeLarge : Int
  iconSizeSmall : Int
  itemPadding : Nat
  lang : String
  fileManager : String
  terminal : String
  deriving DecidableEq

/-- The default values of the flags (lines 103-118). -/
def Flags.default : Flags where
  cssFileName := "menu-start.css"
  targetOutput := ""
  displayVersion := false
  autohide := false
  valign := "bottom"
  halign := "left"
  marginTop := 0
  marginLeft := 0
  marginRight := 0
  marginBottom := 0
  iconSizeLarge := 32
  iconSizeSmall := 16
  itemPadding := 2
  lang := ""
  fileManager := "thunar"
  terminal := "alacritty"

/-- What `main` reads from outside: the flags and the results of the calls
whose code is not in `main.go`. -/
structure Env where
  flags : Flags
  /-- `os.Getenv("LANG")` -/
  envLANG : String
  /-- the result of `tempDir()` -/
  tempDir : String
  /-- whether `singleinstance.CreateLockFile` returned a nil error -/
  lockCreated : Bool
  /-- the result of `readTextFile(lockFilePath)`; `none` is a non-nil error -/
  lockFileContent : Option String
  /-- the result of `configDir()` -/
  configDir : String
  /-- the result of `cacheDir()` -/
  cacheDir : String
  /-- the result of `listDesktopFiles()` -/
  desktopFiles : List String
  /-- the error of `cssProvider.LoadFromPath`, `none` when nil -/
  cssLoadError : Option String
  /-- whether `gtk.WindowNew` returned a nil error -/
  windowCreated : Bool
  /-- the result of `mapOutputs()`: output names with the height of the
  monitor geometry; `none` is a non-nil error -/
  outputs : Option (List (String × Int))
  /-- milliseconds between the two `time.Now()` calls -/
  elapsedMs : Int
  deriving DecidableEq

/-- The version constant (line 22). -/
def version : String := "0.0.1"

/-- Signals of package `syscall`; `main` uses SIGTERM only. -/
inductive Signal where
  | SIGINT
  | SIGKILL
  | SIGTERM
  deriving DecidableEq

/-- The layer-shell edges `layershell.LAYER_SHELL_EDGE_*`. -/
inductive Edge where
  | LEFT
  | RIGHT
  | TOP
  | BOTTOM
  deriving DecidableEq

/-- The calls `main` makes, in the order of the source text. -/
inductive Call where
  | timeNow
  | flagParse
  | printf (text : String)
  | println (text : String)
  | osExit (code : Int)
  | signalNotify (sig : Signal)
  /-- the `go func() { ... }()` statement of lines 132-140 -/
  | goSignalHandler
  | tempDir
  | createLockFile (path : String)
  | readTextFile (path : String)
  | kill (pid : Int) (sig : Signal)
  | lockFileClose
  | getenv (name : String)
  | configDir
  | cacheDir
  | logPanic (text : String)
  | logFatal (text : String)
  | getAppDirs
  | setUpCategories
  | listDesktopFiles
  | parseDesktopFiles (files : List String)
  | gtkInit
  | cssProviderNew
  | cssLoadFromPath (path : String)
  | gdkScreenGetDefault
  | gtkAddProviderForScreen
  | gtkWindowNew
  | layershellInitForWindow
  | mapOutputs
  | layershellSetMonitor (output : String)
  | monitorGetGeometry
  | layershellSetAnchor (edge : Edge) (anchorToEdge : Bool)
  | layershellSetLayerTop
  | layershellSetMargin (edge : Edge) (margin : Int)
  | layershellSetKeyboardModeExclusive
  | winConnect (signal : String)
  | winSetSizeRequest (width height : Int)
  | winShowAll
  /-- a widget constructor `gtk.BoxNew` or `gtk.SeparatorNew`, with the
  variable it is assigned to -/
  | gtkNew (target : String)
  /-- a method call on a widget, `receiver.method(argument, ...)` -/
  | widget (receiver method argument : String)
  | setUpPinnedListBox
  | setUpCategoriesListBox
  | setUpSearchEntry
  | setUpUserDirsList
  | setUpBackButton
  | setUpButtonBox
  | gtkMain
  | gtkMainQuit
  | clearSearchResult
  deriving DecidableEq

/-- How a run of `main` ends. -/
inductive Outcome where
  /-- `os.Exit(code)`, or `log.Fatal` with code 1 -/
  | exited (code : Int)
  /-- `log.Panic` -/
  | logPanicked
  /-- run-time panic of an index expression -/
  | indexPanicked
  /-- `gtk.Main()` returned and `main` reached its end -/
  | returned
  deriving DecidableEq

/-- A run of `main`: the calls made, the way it ended, and the values of the
variables `*lang`, `configDirectory` and `pinnedFile` at the end. -/
structure Run where
  trace : List Call
  outcome : Outcome
  lang : String
  configDirectory : String
  pinnedFile : String
  deriving DecidableEq

/-- The body of the goroutine of lines 132-140 for one received signal. -/
def signalHandler (s : Signal) : List Call :=
  if s = Signal.SIGTERM then [Call.println "SIGTERM received, bye bye!", Call.gtkMainQuit]
  else []

/-- Line 143: `fmt.Sprintf("%s/nwg-panel-plugin-menu.lock", tempDir())`. -/
def lockFilePath (env : Env) : String :=
  env.tempDir ++ "/nwg-panel-plugin-menu.lock"

/-- Lines 146-160: the branch taken when `CreateLockFile` fails. -/
def toggleRunning (env : Env) : List Call :=
  [Call.readTextFile (lockFilePath env)] ++
  (match env.lockFileContent with
   | some pid =>
     match strconv.Atoi pid with
     | some i =>
       [Call.println "Running instance found, sending SIGTERM and exiting...",
        Call.kill i Signal.SIGTERM]
     | none => []
   | none => []) ++
  [Call.osExit 0]

/-- Lines 194-204: loading the style sheet. -/
def loadCss (env : Env) (cssFile : String) : List Call :=
  [Call.cssProviderNew, Call.cssLoadFromPath cssFile] ++
  (match env.cssLoadError with
   | some err =>
     [Call.println ("ERROR: " ++ cssFile ++
        " css file not found or erroneous. Using GTK styling."),
      Call.println (">>> " ++ err)]
   | none =>
     [Call.println ("Using style from " ++ cssFile),
      Call.gdkScreenGetDefault, Call.gtkAddProviderForScreen])

/-- Lines 214-231: the value of `screenHeight`.  A missing map key gives the
nil monitor, whose geometry is the zero rectangle. -/
def screenHeight (env : Env) : Int :=
  if env.flags.targetOutput ≠ "" then
    match env.outputs with
    | some o2m => ((o2m.lookup env.flags.targetOutput)).getD 0
    | none => 0
  else 0

/-- Lines 216-231: assigning the window to the target output. -/
def assignMonitor (env : Env) : List Call :=
  if env.flags.targetOutput ≠ "" then
    [Call.mapOutputs] ++
    (match env.outputs with
     | some _ => [Call.layershellSetMonitor env.flags.targetOutput, Call.monitorGetGeometry]
     | none => [Call.println "mapOutputs error"])
  else []

/-- Lines 233-243: anchoring the window from the `-va` and `-ha` flags. -/
def anchorWindow (flags : Flags) : List Call :=
  (if flags.valign = "bottom" then [Call.layershellSetAnchor Edge.BOTTOM true]
   else [Call.layershellSetAnchor Edge.TOP true]) ++
  (if flags.halign = "left" then [Call.layershellSetAnchor Edge.LEFT true]
   else [Call.layershellSetAnchor Edge.RIGHT true])

/-- Lines 245-284: layer, margins, keyboard mode and the signal connections. -/
def configureWindow (flags : Flags) : List Call :=
  [Call.layershellSetLayerTop,
   Call.layershellSetMargin Edge.TOP flags.marginTop,
   Call.layershellSetMargin Edge.LEFT flags.marginLeft,
   Call.layershellSetMargin Edge.RIGHT flags.marginRight,
   Call.layershellSetMargin Edge.BOTTOM flags.marginBottom,
   Call.layershellSetKeyboardModeExclusive,
   Call.winConnect "destroy",
   Call.winConnect "key-release-event",
   Call.winConnect "leave-notify-event",
   Call.winConnect "enter-notify-event"]

/-- Lines 286-330: building the widget tree. -/
def buildWidgets : List Call :=
  [Call.widget "win" "SetProperty" "name",
   Call.gtkNew "outerBox",
   Call.widget "outerBox" "SetProperty" "name",
   Call.widget "win" "Add" "outerBox",
   Call.gtkNew "alignmentBox",
   Call.widget "alignmentBox" "SetHomogeneous" "true",
   Call.widget "outerBox" "PackStart" "alignmentBox",
   Call.gtkNew "leftBox",
   Call.widget "alignmentBox" "PackStart" "leftBox",
   Call.gtkNew "leftColumn",
   Call.widget "leftBox" "PackStart" "leftColumn",
   Call.setUpPinnedListBox,
   Call.widget "leftColumn" "PackStart" "pinnedListBox",
   Call.gtkNew "sep",
   Call.widget "leftColumn" "PackStart" "sep",
   Call.setUpCategoriesListBox,
   Call.widget "leftColumn" "PackStart" "categoriesListBox",
   Call.setUpSearchEntry,
   Call.widget "leftColumn" "PackEnd" "searchEntry",
   Call.gtkNew "rightBox",
   Call.widget "alignmentBox" "PackStart" "rightBox",
   Call.gtkNew "rightColumn",
   Call.widget "rightBox" "PackStart" "rightColumn",
   Call.setUpUserDirsList,
   Call.widget "rightColumn" "PackStart" "userDirsListBox",
   Call.setUpBackButton,
   Call.widget "rightColumn" "PackStart" "backButton",
   Call.gtkNew "resultWrapper",
   Call.widget "rightColumn" "PackStart" "resultWrapper",
   Call.setUpButtonBox,
   Call.widget "rightColumn" "PackEnd" "buttonBox"]

/-- Lines 332-342: sizing and showing the window, entering the main loop. -/
def showAndRun (env : Env) : List Call :=
  [Call.winSetSizeRequest ((screenHeight env * 6).tdiv 10) ((screenHeight env * 6).tdiv 10),
   Call.winShowAll,
   Call.widget "backButton" "Hide" "",
   Call.widget "pinnedListBox" "UnselectAll" "",
   Call.widget "categoriesListBox" "UnselectAll" "",
   Call.widget "searchEntry" "GrabFocus" "",
   Call.timeNow,
   Call.println ("UI created in " ++ toString env.elapsedMs ++ " ms. Thanks for watching."),
   Call.gtkMain]

/-- Lines 120-140: the calls up to the lock file. -/
def startUp (env : Env) : List Call :=
  [Call.timeNow, Call.flagParse,
   Call.signalNotify Signal.SIGTERM, Call.goSignalHandler,
   Call.tempDir, Call.createLockFile (lockFilePath env)]

/-- Lines 182-189: the catalog build. -/
def buildCatalog (env : Env) : List Call :=
  [Call.getAppDirs, Call.setUpCategories, Call.listDesktopFiles,
   Call.println ("Found " ++ toString env.desktopFiles.length ++ " desktop files"),
   Call.parseDesktopFiles env.desktopFiles]

/-- Lines 165-166: the reads of the environment variable `LANG`. -/
def langCalls (env : Env) : List Call :=
  if env.flags.lang = "" then
    [Call.getenv "LANG"] ++ (if env.envLANG ≠ "" then [Call.getenv "LANG"] else [])
  else []

/-- Lines 120-173: the calls up to and including `cacheDir()`, given the
value `lang` of `*lang` after the LANGUAGE block. -/
def upToCacheDir (env : Env) (lang : String) : List Call :=
  startUp env ++ langCalls env ++
    [Call.println ("lang: " ++ lang),
     -- ENVIRONMENT
     Call.configDir, Call.cacheDir]

/-- Lines 192-206: `gtk.Init`, the style sheet and the window. -/
def openInterface (env : Env) (cssFile : String) : List Call :=
  [Call.gtkInit] ++ loadCss env cssFile ++ [Call.gtkWindowNew]

/-- Lines 211-342: everything after the window has been created. -/
def runInterface (env : Env) : List Call :=
  [Call.layershellInitForWindow] ++ assignMonitor env ++
    anchorWindow env.flags ++ configureWindow env.flags ++ buildWidgets ++
    showAndRun env

/-- The function `main` (lines 120-343). -/
def main (env : Env) : Run :=
  if env.flags.displayVersion then
    { trace := [Call.timeNow, Call.flagParse,
                Call.printf ("nwg-panel-plugin-menu version " ++ version ++ "\n"),
                Call.osExit 0],
      outcome := Outcome.exited 0,
      lang := env.flags.lang, configDirectory := "", pinnedFile := "" }
  else if !env.lockCreated then
    { trace := startUp env ++ toggleRunning env,
      outcome := Outcome.exited 0,
      lang := env.flags.lang, configDirectory := "", pinnedFile := "" }
  else
    -- LANGUAGE
    match selectLang env.flags.lang env.envLANG with
    | none =>
      { trace := startUp env ++ langCalls env ++ [Call.lockFileClose],
        outcome := Outcome.indexPanicked,
        lang := env.flags.lang, configDirectory := "", pinnedFile := "" }
    | some lang =>
      if env.cacheDir = "" then
        { trace := upToCacheDir env lang ++
            [Call.logPanic "Couldn't determine cache directory location",
             Call.lockFileClose],
          outcome := Outcome.logPanicked,
          lang := lang, configDirectory := env.configDir, pinnedFile := "" }
      else
        -- DATA
        let pinnedFile := filepath.Join [env.cacheDir, "nwg-pin-cache"]
        let cssFile := filepath.Join [env.configDir, env.flags.cssFileName]
        if !env.windowCreated then
          { trace := upToCacheDir env lang ++ buildCatalog env ++ openInterface env cssFile ++
              [Call.logFatal "Unable to create window:"],
            outcome := Outcome.exited 1,
            lang := lang, configDirectory := env.configDir, pinnedFile := pinnedFile }
        else
          { trace := upToCacheDir env lang ++ buildCatalog env ++ openInterface env cssFile ++
              runInterface env ++ [Call.lockFileClose],
            outcome := Outcome.returned,
            lang := lang, configDirectory := env.configDir, pinnedFile := pinnedFile }

/-- An environment for examples: default flags, a free lock, a usual
`LANG`, cache and configuration directories, two descriptor files. -/
def Env.sample : Env where
  flags := Flags.default
  envLANG := "en_US.UTF-8"
  tempDir := "/tmp"
  lockCreated := true
  lockFileContent := none
  configDir := "/home/u/.config/nwg-panel"
  cacheDir := "/home/u/.cache"
  desktopFiles := ["/usr/share/applications/a.desktop", "/usr/share/applications/b.desktop"]
  cssLoadError := none
  windowCreated := true
  outputs := none
  elapsedMs := 40

/-- An environment in which another instance holds the lock and the lock
file does not hold a process id. -/
def Env.staleLock : Env :=
  { Env.sample with lockCreated := false, lockFileContent := some "not-a-pid" }

/-- An environment in which another instance holds the lock and the lock
file holds its process id. -/
def Env.heldLock : Env :=
  { Env.sample with lockCreated := false, lockFileContent := some "4711" }

/-- The two calls of the catalog build, `listDesktopFiles` and
`parseDesktopFiles`. -/
def Call.isCatalogBuild : Call → Bool
  | Call.listDesktopFiles => true
  | Call.parseDesktopFiles _ => true
  | _ => false

/-- The calls of the USER INTERFACE part: GTK, GDK, the layer shell and the
widget set-up functions of the program. -/
def Call.isInterface : Call → Bool
  | Call.gtkInit => true
  | Call.cssProviderNew => true
  | Call.cssLoadFromPath _ => true
  | Call.gdkScreenGetDefault => true
  | Call.gtkAddProviderForScreen => true
  | Call.gtkWindowNew => true
  | Call.layershellInitForWindow => true
  | Call.mapOutputs => true
  | Call.layershellSetMonitor _ => true
  | Call.monitorGetGeometry => true
  | Call.layershellSetAnchor _ _ => true
  | Call.layershellSetLayerTop => true
  | Call.layershellSetMargin _ _ => true
  | Call.layershellSetKeyboardModeExclusive => true
  | Call.winConnect _ => true
  | Call.winSetSizeRequest _ _ => true
  | Call.winShowAll => true
  | Call.gtkNew _ => true
  | Call.widget _ _ _ => true
  | Call.setUpPinnedListBox => true
  | Call.setUpCategoriesListBox => true
  | Call.setUpSearchEntry => true
  | Call.setUpUserDirsList => true
  | Call.setUpBackButton => true
  | Call.setUpButtonBox => true
  | Call.gtkMain => true
  | Call.gtkMainQuit => true
  | Call.clearSearchResult => true
  | _ => false

/-- Whether a call sends a signal to a process. -/
def Call.isKill : Call → Bool
  | Call.kill _ _ => true
  | _ => false

/-! ## Window anchoring (lines 233-243) -/

/-- The effect of one call on the set of edges the layer-shell window is
anchored to; only `layershell.SetAnchor` changes it. -/
def applyAnchor (anchored : Edge → Bool) : Call → Edge → Bool
  | Call.layershellSetAnchor edge b => fun e => if e = edge then b else anchored e
  | _ => anchored

/-- The edges the window is anchored to after a sequence of calls; a fresh
layer-shell window is anchored to no edge. -/
def anchoredEdges (trace : List Call) : Edge → Bool :=
  trace.foldl applyAnchor (fun _ => false)

/-- The `layershell.SetAnchor` calls of a sequence of calls, in order. -/
def anchorCalls (trace : List Call) : List (Edge × Bool) :=
  trace.filterMap fun c =>
    match c with
    | Call.layershellSetAnchor edge b => some (edge, b)
    | _ => none

/-! ## The key-release handler (lines 258-270) -/

/-- The key value `gdk.KEY_Escape`. -/
def KEY_Escape : Nat := 0xff1b

/-- What the key handler reads and changes: the text of the search entry and
whether `gtk.MainQuit` has been called. -/
structure MenuState where
  searchText : String
  quit : Bool
  deriving DecidableEq

/-- The handler connected to `key-release-event` (lines 258-270): the next
state and the calls made.  `searchEntry.GetText` returns the text of the
entry and `searchEntry.SetText` replaces it. -/
def keyReleaseEvent (keyVal : Nat) (st : MenuState) : MenuState × List Call :=
  if keyVal = KEY_Escape then
    let s := st.searchText
    if s ≠ "" then
      ({ st with searchText := "" },
       [Call.widget "searchEntry" "GetText" "",
        Call.clearSearchResult,
        Call.widget "searchEntry" "GrabFocus" "",
        Call.widget "searchEntry" "SetText" ""])
    else
      ({ st with quit := true },
       [Call.widget "searchEntry" "GetText" "", Call.gtkMainQuit])
  else
    (st, [])

/-- The state and the calls after a sequence of key releases. -/
def keyReleases : List Nat → MenuState → MenuState × List Call
  | [], st => (st, [])
  | k :: ks, st =>
    let r := keyReleaseEvent k st
    let r2 := keyReleases ks r.1
    (r2.1, r.2 ++ r2.2)

namespace filepath

/-- A path element that `Clean` keeps: not empty, free of separators, and
neither `.` nor `..`. -/
def IsPlainElement (name : List Char) : Prop :=
  name ≠ [] ∧ (∀ c ∈ name, IsPathSeparator c = false) ∧ name ≠ ['.'] ∧ name ≠ ['.', '.']

/-- The invariant of the loop of `Clean` on a rooted path: the buffer starts
with the separator (its oldest byte) and `dotdot` is 1. -/
def RootKept (rooted : Bool) (out : List Char) (dotdot : Nat) : Prop :=
  rooted = true → dotdot = 1 ∧ out.getLast? = some Separator

end filepath

/-- An environment with the flags `-va top -ha right`. -/
def Env.topRight : Env :=
  { Env.sample with flags := { Flags.default with valign := "top", halign := "right" } }

/-- An environment in which `cacheDir()` returns the empty string. -/
def Env.noCache : Env := { Env.sample with cacheDir := "" }

/-! ## The catalog (lines 59-84) and its builder -/

/-- The struct `desktopEntry` (lines 59-69). -/
structure desktopEntry where
  DesktopID : String
  Name : String
  NameLoc : String
  Comment : String
  CommentLoc : String
  Icon : String
  Exec : String
  Terminal : Bool
  NoDisplay : Bool
  deriving DecidableEq

/-- The nine categories, one per member of `categoryNames` and per list of
lines 72-82. -/
inductive Category where
  | utility
  | development
  | game
  | graphics
  | internetAndNetwork
  | office
  | audioVideo
  | systemTools
  | other
  deriving DecidableEq

/-- The catalog variables of lines 71-84: the per-category lists of
DesktopID strings and `desktopEntries`. -/
structure Catalog where
  listUtility : List String
  listDevelopment : List String
  listGame : List String
  listGraphics : List String
  listInternetAndNetwork : List String
  listOffice : List String
  listAudioVideo : List String
  listSystemTools : List String
  listOther : List String
  desktopEntries : List desktopEntry
  deriving DecidableEq

/-- The catalog variables at program start: all nil. -/
def Catalog.empty : Catalog :=
  { listUtility := [], listDevelopment := [], listGame := [], listGraphics := [],
    listInternetAndNetwork := [], listOffice := [], listAudioVideo := [],
    listSystemTools := [], listOther := [], desktopEntries := [] }

/-- The list variable that belongs to a category. -/
def Catalog.list (cat : Catalog) : Category → List String
  | Category.utility => cat.listUtility
  | Category.development => cat.listDevelopment
  | Category.game => cat.listGame
  | Category.graphics => cat.listGraphics
  | Category.internetAndNetwork => cat.listInternetAndNetwork
  | Category.office => cat.listOffice
  | Category.audioVideo => cat.listAudioVideo
  | Category.systemTools => cat.listSystemTools
  | Category.other => cat.listOther

/-- Modelled from the spec: appending an id to the list of the one category
it is assigned to (section 4.2). -/
def Catalog.append (cat : Catalog) (c : Category) (id : String) : Catalog :=
  match c with
  | Category.utility => { cat with listUtility := cat.listUtility ++ [id] }
  | Category.development => { cat with listDevelopment := cat.listDevelopment ++ [id] }
  | Category.game => { cat with listGame := cat.listGame ++ [id] }
  | Category.graphics => { cat with listGraphics := cat.listGraphics ++ [id] }
  | Category.internetAndNetwork =>
    { cat with listInternetAndNetwork := cat.listInternetAndNetwork ++ [id] }
  | Category.office => { cat with listOffice := cat.listOffice ++ [id] }
  | Category.audioVideo => { cat with listAudioVideo := cat.listAudioVideo ++ [id] }
  | Category.systemTools => { cat with listSystemTools := cat.listSystemTools ++ [id] }
  | Category.other => { cat with listOther := cat.listOther ++ [id] }

/-- Modelled from the spec: the Categorizer (section 4.3), whose code is not
in `main.go`.  The tags of a descriptor are tested against a priority-ordered
table of (tag, category) rules; the first rule whose tag is among the tags
wins; when no rule matches the category is `other`.  The table itself is not
given by the specification and is a parameter. -/
def categorize (table : List (String × Category)) (tags : List String) : Category :=
  match table.find? (fun rule => tags.contains rule.1) with
  | some rule => rule.2
  | none => Category.other

/-- The two override policies the specification allows for descriptor files
of several search roots that yield the same id (section 4.2). -/
inductive Policy where
  | firstWins
  | lastWins
  deriving DecidableEq

/-- Modelled from the spec: the deduplication by identifier (section 4.2),
first file winning: keeps, of the files whose id is not in `seen`, the first
one per id. -/
def dedupFirst (idOf : String → String) (seen : List String) : List String → List String
  | [] => []
  | f :: fs =>
    if idOf f ∈ seen then dedupFirst idOf seen fs
    else f :: dedupFirst idOf (idOf f :: seen) fs

/-- Modelled from the spec: the deduplication by identifier of the Catalog
Builder (section 4.2): one file per id survives, the first or the last in
scan order according to the policy; scan order is kept. -/
def survivors (idOf : String → String) (policy : Policy) (files : List String) : List String :=
  match policy with
  | Policy.firstWins => dedupFirst idOf [] files
  | Policy.lastWins => (dedupFirst idOf [] files.reverse).reverse

/-- Modelled from the spec: one step of the Catalog Builder (section 4.2) on a
surviving file.  A file the Entry Parser (section 4.1, the parameter `parse`,
which yields the entry and its category tags) rejects is skipped; otherwise
the entry, under the id derived from the file name, is added to
`desktopEntries` and its id is appended to the list of the one category the
Categorizer assigns. -/
def addDesktopFile (idOf : String → String)
    (parse : String → Option (desktopEntry × List String))
    (table : List (String × Category)) (cat : Catalog) (file : String) : Catalog :=
  match parse file with
  | none => cat
  | some (entry, tags) =>
    let entry := { entry with DesktopID := idOf file }
    let cat := { cat with desktopEntries := cat.desktopEntries ++ [entry] }
    cat.append (categorize table tags) entry.DesktopID

/-- Modelled from the spec: `parseDesktopFiles`, the Catalog Builder
(section 4.2), whose code is not in `main.go`; only the call of line 189 and
the variables of lines 71-84 are.  The files are deduplicated by id and then
processed in scan order, starting from the empty catalog. -/
def parseDesktopFiles (idOf : String → String)
    (parse : String → Option (desktopEntry × List String))
    (table : List (String × Category)) (policy : Policy) (desktopFiles : List String) :
    Catalog :=
  (survivors idOf policy desktopFiles).foldl (addDesktopFile idOf parse table) Catalog.empty

/-- The ids a sequence of surviving files adds to the list of category `c`. -/
def idsOf (idOf : String → String) (parse : String → Option (desktopEntry × List String))
    (table : List (String × Category)) (c : Category) (files : List String) : List String :=
  files.filterMap fun file =>
    match parse file with
    | none => none
    | some (_, tags) => if c = categorize table tags then some (idOf file) else none

/-- The entries a sequence of surviving files adds to `desktopEntries`. -/
def entriesOf (idOf : String → String) (parse : String → Option (desktopEntry × List String))
    (files : List String) : List desktopEntry :=
  files.filterMap fun file =>
    match parse file with
    | none => none
    | some (entry, _) => some { entry with DesktopID := idOf file }

/-! ## Sample data for the catalog build -/

/-- A sample rule table for the Categorizer. -/
def sampleTable : List (String × Category) :=
  [("Utility", Category.utility), ("Development", Category.development),
   ("Game", Category.game), ("Graphics", Category.graphics),
   ("Network", Category.internetAndNetwork), ("Office", Category.office),
   ("AudioVideo", Category.audioVideo), ("System", Category.systemTools)]

/-- A sample entry, before the builder sets its id. -/
def sampleEntry (name exec : String) : desktopEntry :=
  { DesktopID := "", Name := name, NameLoc := name, Comment := "", CommentLoc := "",
    Icon := "", Exec := exec, Terminal := false, NoDisplay := false }

/-- A sample Entry Parser: three readable descriptor files, every other file
is malformed. -/
def sampleParse (file : String) : Option (desktopEntry × List String) :=
  if file = "/home/u/.local/share/applications/firefox.desktop" then
    some (sampleEntry "Firefox (user)" "firefox", ["Network", "WebBrowser"])
  else if file = "/usr/share/applications/firefox.desktop" then
    some (sampleEntry "Firefox" "firefox", ["Network"])
  else if file = "/usr/share/applications/xeyes.desktop" then
    some (sampleEntry "XEyes" "xeyes", ["X-Toy"])
  else none

/-- A sample scan: two roots yield `firefox.desktop`, one file is
malformed. -/
def sampleFiles : List String :=
  ["/home/u/.local/share/applications/firefox.desktop",
   "/usr/share/applications/firefox.desktop",
   "/usr/share/applications/broken.desktop",
   "/usr/share/applications/xeyes.desktop"]

/-- The catalog of the sample scan, ids being file names, first root
winning. -/
def sampleCatalog : Catalog :=
  parseDesktopFiles filepath.Base sampleParse sampleTable Policy.firstWins sampleFiles

/-! ## Theorems -/

/-- C1: `categoryNames` has exactly 9 members, pairwise distinct, equal in
this order to utility, development, game, graphics, internet-and-network,
office, audio-video, system-tools, other; so "other" is the last member. -/
theorem categoryNames_enumeration :
    categoryNames.length = 9 ∧ categoryNames.Nodup ∧
    categoryNames =
      ["utility", "development", "game", "graphics", "internet-and-network",
       "office", "audio-video", "system-tools", "other"] ∧
    categoryNames.getLast? = some "other" := by
  refine ⟨by decide, by decide, rfl, by decide⟩


/-! ### The library models on the test vectors of the Go sources -/

theorem strings.Split_examples :
    strings.Split "en_US.UTF-8" '.' = ["en_US", "UTF-8"] ∧
    strings.Split "a.b.c" '.' = ["a", "b", "c"] ∧
    strings.Split ".a." '.' = ["", "a", ""] ∧
    strings.Split "C" '.' = ["C"] ∧
    strings.Split "" '.' = [""] := by
  decide

theorem strconv.Atoi_examples :
    strconv.Atoi "" = none ∧
    strconv.Atoi "0" = some 0 ∧
    strconv.Atoi "-0" = some 0 ∧
    strconv.Atoi "+1" = some 1 ∧
    strconv.Atoi "012345" = some 12345 ∧
    strconv.Atoi "-98765432" = some (-98765432) ∧
    strconv.Atoi "12345x" = none ∧
    strconv.Atoi "1_000" = none ∧
    strconv.Atoi "4711\n" = none ∧
    strconv.Atoi "-" = none ∧
    strconv.Atoi "9223372036854775807" = some 9223372036854775807 ∧
    strconv.Atoi "-9223372036854775808" = some (-9223372036854775808) ∧
    strconv.Atoi "9223372036854775808" = none ∧
    strconv.Atoi "-9223372036854775809" = none := by
  decide

theorem filepath.Clean_examples :
    filepath.Clean "abc" = "abc" ∧
    filepath.Clean "abc/def" = "abc/def" ∧
    filepath.Clean "../../abc" = "../../abc" ∧
    filepath.Clean "/" = "/" ∧
    filepath.Clean "" = "." ∧
    filepath.Clean "abc/" = "abc" ∧
    filepath.Clean "abc//def//ghi" = "abc/def/ghi" ∧
    filepath.Clean "///abc" = "/abc" ∧
    filepath.Clean "abc/./def" = "abc/def" ∧
    filepath.Clean "/./abc/def" = "/abc/def" ∧
    filepath.Clean "abc/def/ghi/../jkl" = "abc/def/jkl" ∧
    filepath.Clean "abc/def/../.." = "." ∧
    filepath.Clean "/abc/def/../.." = "/" ∧
    filepath.Clean "abc/def/../../.." = ".." ∧
    filepath.Clean "/abc/def/../../.." = "/" ∧
    filepath.Clean "abc/def/../../../ghi/jkl/../../../mno" = "../../mno" ∧
    filepath.Clean "/../abc" = "/abc" ∧
    filepath.Clean "abc/./../def" = "def" ∧
    filepath.Clean "abc//./../def" = "def" ∧
    filepath.Clean "abc/../../././../def" = "../../def" := by
  decide

theorem filepath.Join_Base_examples :
    filepath.Join [] = "" ∧
    filepath.Join ["", ""] = "" ∧
    filepath.Join ["a", ""] = "a" ∧
    filepath.Join ["", "a"] = "a" ∧
    filepath.Join ["a", "b"] = "a/b" ∧
    filepath.Join ["a/", "b"] = "a/b" ∧
    filepath.Join ["/", "a"] = "/a" ∧
    filepath.Join ["//", "a"] = "/a" ∧
    filepath.Base "" = "." ∧
    filepath.Base "." = "." ∧
    filepath.Base "/." = "." ∧
    filepath.Base "/" = "/" ∧
    filepath.Base "////" = "/" ∧
    filepath.Base "x/" = "x" ∧
    filepath.Base "abc" = "abc" ∧
    filepath.Base "abc/def" = "def" ∧
    filepath.Base "a/b/.x" = ".x" ∧
    filepath.Base "a/b/c.x" = "c.x" := by
  decide

/-! ### Locale selection -/

theorem strings.length_le_len (s : List Char) : s.length ≤ strings.len s := by
  have h : ∀ l : List Char, l.length ≤ String.utf8ByteSize.go l := by
    intro l
    induction l with
    | nil => simp [String.utf8ByteSize.go]
    | cons c cs ih =>
      simp only [String.utf8ByteSize.go, List.length_cons]
      have := Char.utf8Size_pos c
      omega
  exact h s

theorem strings.genSplit_eq (s : List Char) (sep : Char) :
    strings.genSplit s sep = strings.genSplitLoop (strings.Count s sep) s sep := by
  unfold strings.genSplit
  have h1 : strings.Count s sep ≤ s.length := List.count_le_length _ _
  have h2 := strings.length_le_len s
  have h3 : ¬ (strings.Count s sep + 1 > strings.len s + 1) := by omega
  simp [h3]

theorem strings.Index_eq_none (s : List Char) (sep : Char) (h : sep ∉ s) :
    strings.Index s sep = none := by
  induction s with
  | nil => rfl
  | cons c cs ih =>
    simp only [List.mem_cons, not_or] at h
    have hc : ¬ c = sep := fun hcs => h.1 hcs.symm
    simp [strings.Index, hc, ih h.2]

theorem strings.Index_ne_none (s : List Char) (sep : Char) (h : sep ∈ s) :
    strings.Index s sep ≠ none := by
  induction s with
  | nil => simp at h
  | cons c cs ih =>
    by_cases hc : c = sep
    · simp [strings.Index, hc]
    · rcases List.mem_cons.mp h with h1 | h1
      · exact absurd h1.symm hc
      · cases hk : strings.Index cs sep with
        | none => exact absurd hk (ih h1)
        | some k => simp [strings.Index, hc, hk]

theorem strings.Index_take (s : List Char) (sep : Char) (m : Nat)
    (h : strings.Index s sep = some m) :
    s.take m = s.takeWhile (· ≠ sep) := by
  induction s generalizing m with
  | nil => simp [strings.Index] at h
  | cons c cs ih =>
    by_cases hc : c = sep
    · simp [strings.Index, hc] at h
      subst h
      simp [List.takeWhile, hc]
    · cases hk : strings.Index cs sep with
      | none => simp [strings.Index, hc, hk] at h
      | some k =>
        simp only [strings.Index, hc, if_false, hk, Option.map_some', Option.some.injEq] at h
        subst h
        simp [List.takeWhile, hc, ih k hk]

theorem takeWhile_ne_of_not_mem (s : List Char) (sep : Char) (h : sep ∉ s) :
    s.takeWhile (· ≠ sep) = s := by
  apply List.takeWhile_eq_self_iff.mpr
  intro x hx
  simp only [ne_eq, decide_not, Bool.not_eq_true', decide_eq_false_iff_not]
  rintro rfl
  exact h hx

theorem strings.genSplit_head (s : List Char) (sep : Char) :
    (strings.genSplit s sep)[0]? = some (s.takeWhile (· ≠ sep)) := by
  rw [strings.genSplit_eq]
  by_cases hmem : sep ∈ s
  · have hpos : 0 < strings.Count s sep := List.count_pos_iff.mpr hmem
    obtain ⟨k, hk⟩ := Nat.exists_eq_succ_of_ne_zero (Nat.pos_iff_ne_zero.mp hpos)
    rw [hk]
    cases hi : strings.Index s sep with
    | none => exact absurd hi (strings.Index_ne_none s sep hmem)
    | some m => simp [strings.genSplitLoop, hi, strings.Index_take s sep m hi]
  · have hc : strings.Count s sep = 0 := List.count_eq_zero.mpr hmem
    rw [hc, takeWhile_ne_of_not_mem s sep hmem]
    simp [strings.genSplitLoop]

theorem selectLang_eq (f e : String) : selectLang f e = some (effectiveLang f e) := by
  unfold selectLang effectiveLang
  by_cases hf : f = ""
  · by_cases he : e = ""
    · simp [hf, he]
    · simp only [hf, he, ne_eq, not_false_eq_true, and_self, if_true, not_true_eq_false,
        if_false]
      unfold strings.Split beforeFirstDot
      rw [List.getElem?_map, strings.genSplit_head]
      rfl
  · simp [hf]

/-! ### The branches of `main` -/

theorem main_of_lockHeld (env : Env)
    (hv : env.flags.displayVersion = false) (hl : env.lockCreated = false) :
    main env =
      { trace := startUp env ++ toggleRunning env,
        outcome := Outcome.exited 0,
        lang := env.flags.lang, configDirectory := "", pinnedFile := "" } := by
  simp [main, hv, hl]

theorem main_of_noCache (env : Env)
    (hv : env.flags.displayVersion = false) (hl : env.lockCreated = true)
    (hc : env.cacheDir = "") :
    main env =
      { trace := upToCacheDir env (effectiveLang env.flags.lang env.envLANG) ++
          [Call.logPanic "Couldn't determine cache directory location", Call.lockFileClose],
        outcome := Outcome.logPanicked,
        lang := effectiveLang env.flags.lang env.envLANG,
        configDirectory := env.configDir, pinnedFile := "" } := by
  simp [main, hv, hl, hc, selectLang_eq]

theorem main_of_noWindow (env : Env)
    (hv : env.flags.displayVersion = false) (hl : env.lockCreated = true)
    (hc : env.cacheDir ≠ "") (hw : env.windowCreated = false) :
    main env =
      { trace := upToCacheDir env (effectiveLang env.flags.lang env.envLANG) ++
          buildCatalog env ++
          openInterface env (filepath.Join [env.configDir, env.flags.cssFileName]) ++
          [Call.logFatal "Unable to create window:"],
        outcome := Outcome.exited 1,
        lang := effectiveLang env.flags.lang env.envLANG,
        configDirectory := env.configDir,
        pinnedFile := filepath.Join [env.cacheDir, "nwg-pin-cache"] } := by
  simp [main, hv, hl, hc, hw, selectLang_eq]

theorem main_of_window (env : Env)
    (hv : env.flags.displayVersion = false) (hl : env.lockCreated = true)
    (hc : env.cacheDir ≠ "") (hw : env.windowCreated = true) :
    main env =
      { trace := upToCacheDir env (effectiveLang env.flags.lang env.envLANG) ++
          buildCatalog env ++
          openInterface env (filepath.Join [env.configDir, env.flags.cssFileName]) ++
          runInterface env ++ [Call.lockFileClose],
        outcome := Outcome.returned,
        lang := effectiveLang env.flags.lang env.envLANG,
        configDirectory := env.configDir,
        pinnedFile := filepath.Join [env.cacheDir, "nwg-pin-cache"] } := by
  simp [main, hv, hl, hc, hw, selectLang_eq]

theorem main_outcome_returned (env : Env) (h : (main env).outcome = Outcome.returned) :
    env.flags.displayVersion = false ∧ env.lockCreated = true ∧ env.cacheDir ≠ "" ∧
    env.windowCreated = true := by
  cases hv : env.flags.displayVersion with
  | true => simp [main, hv] at h
  | false =>
    cases hl : env.lockCreated with
    | false => rw [main_of_lockHeld env hv hl] at h; simp at h
    | true =>
      by_cases hc : env.cacheDir = ""
      · rw [main_of_noCache env hv hl hc] at h; simp at h
      · cases hw : env.windowCreated with
        | false => rw [main_of_noWindow env hv hl hc hw] at h; simp at h
        | true => exact ⟨rfl, rfl, hc, rfl⟩

theorem main_lang (env : Env)
    (hv : env.flags.displayVersion = false) (hl : env.lockCreated = true) :
    (main env).lang = effectiveLang env.flags.lang env.envLANG := by
  by_cases hc : env.cacheDir = ""
  · rw [main_of_noCache env hv hl hc]
  · cases hw : env.windowCreated with
    | false => rw [main_of_noWindow env hv hl hc hw]
    | true => rw [main_of_window env hv hl hc hw]

/-- C2: the effective language tag is the `-lang` flag when that is non-empty;
otherwise the prefix of `LANG` before its first "." when `LANG` is non-empty
(all of `LANG` when it has no "."); otherwise the empty string.  The index
expression never panics, and this is the value `main` leaves in `*lang` in
every run that gets to the LANGUAGE block. -/
theorem selectLang_spec (f e : String) :
    selectLang f e =
      some (if f ≠ "" then f else if e ≠ "" then beforeFirstDot e else "") ∧
    (¬ '.' ∈ e.data → beforeFirstDot e = e) ∧
    (∀ env : Env, env.flags.lang = f → env.envLANG = e →
      env.flags.displayVersion = false → env.lockCreated = true →
      (main env).lang = if f ≠ "" then f else if e ≠ "" then beforeFirstDot e else "") := by
  refine ⟨selectLang_eq f e, ?_, ?_⟩
  · intro h
    unfold beforeFirstDot
    rw [takeWhile_ne_of_not_mem e.data '.' h]
  · intro env hf he hv hl
    rw [main_lang env hv hl, hf, he]
    rfl

/-- Witness for C2 at `LANG=en_US.UTF-8` and at `LANG=C`, no `-lang` flag. -/
theorem selectLang_spec_witness :
    selectLang "" "en_US.UTF-8" = some "en_US" ∧ beforeFirstDot "C" = "C" ∧
    (main Env.sample).lang = "en_US" :=
  ⟨(selectLang_spec "" "en_US.UTF-8").1.trans (by decide),
   (selectLang_spec "" "C").2.1 (by decide),
   ((selectLang_spec "" "en_US.UTF-8").2.2 Env.sample (by decide) (by decide) (by decide)
      (by decide)).trans (by decide)⟩

/-! ### Calls that neither build the catalog nor touch the interface -/

theorem startUp_plain (env : Env) :
    ∀ c ∈ startUp env, c.isCatalogBuild = false ∧ c.isInterface = false := by
  intro c hc
  simp only [startUp, List.mem_cons, List.mem_singleton, List.not_mem_nil, or_false] at hc
  rcases hc with rfl | rfl | rfl | rfl | rfl | rfl <;> exact ⟨rfl, rfl⟩

theorem toggleRunning_plain (env : Env) :
    ∀ c ∈ toggleRunning env, c.isCatalogBuild = false ∧ c.isInterface = false := by
  intro c hc
  simp only [toggleRunning, List.mem_append, List.mem_cons, List.mem_singleton,
    List.not_mem_nil, or_false] at hc
  rcases hc with (rfl | hc) | rfl
  · exact ⟨rfl, rfl⟩
  · cases hcont : env.lockFileContent with
    | none => simp [hcont] at hc
    | some content =>
      cases ha : strconv.Atoi content with
      | none => simp [hcont, ha] at hc
      | some i =>
        simp only [hcont, ha, List.mem_cons, List.mem_singleton, List.not_mem_nil,
          or_false] at hc
        rcases hc with rfl | rfl <;> exact ⟨rfl, rfl⟩
  · exact ⟨rfl, rfl⟩

theorem langCalls_plain (env : Env) :
    ∀ c ∈ langCalls env, c.isCatalogBuild = false ∧ c.isInterface = false := by
  intro c hc
  unfold langCalls at hc
  split at hc
  · simp only [List.mem_append, List.mem_singleton] at hc
    rcases hc with rfl | hc
    · exact ⟨rfl, rfl⟩
    · split at hc
      · simp only [List.mem_singleton] at hc
        subst hc
        exact ⟨rfl, rfl⟩
      · simp at hc
  · simp at hc

theorem upToCacheDir_plain (env : Env) (lang : String) :
    ∀ c ∈ upToCacheDir env lang, c.isCatalogBuild = false ∧ c.isInterface = false := by
  intro c hc
  unfold upToCacheDir at hc
  simp only [List.mem_append] at hc
  rcases hc with (hc | hc) | hc
  · exact startUp_plain env c hc
  · exact langCalls_plain env c hc
  · simp only [List.mem_cons, List.mem_singleton, List.not_mem_nil, or_false] at hc
    rcases hc with rfl | rfl | rfl <;> exact ⟨rfl, rfl⟩

theorem loadCss_no_catalog (env : Env) (cssFile : String) :
    ∀ c ∈ loadCss env cssFile, c.isCatalogBuild = false := by
  intro c hc
  unfold loadCss at hc
  cases h : env.cssLoadError with
  | none =>
    simp only [h, List.mem_append, List.mem_cons, List.mem_singleton, List.not_mem_nil,
      or_false] at hc
    rcases hc with (rfl | rfl) | rfl | rfl | rfl <;> rfl
  | some err =>
    simp only [h, List.mem_append, List.mem_cons, List.mem_singleton, List.not_mem_nil,
      or_false] at hc
    rcases hc with (rfl | rfl) | rfl | rfl <;> rfl

theorem assignMonitor_no_catalog (env : Env) :
    ∀ c ∈ assignMonitor env, c.isCatalogBuild = false := by
  intro c hc
  unfold assignMonitor at hc
  split at hc
  · cases h : env.outputs with
    | none =>
      simp only [h, List.mem_append, List.mem_cons, List.mem_singleton, List.not_mem_nil,
        or_false] at hc
      rcases hc with rfl | rfl <;> rfl
    | some o =>
      simp only [h, List.mem_append, List.mem_cons, List.mem_singleton, List.not_mem_nil,
        or_false] at hc
      rcases hc with rfl | rfl | rfl <;> rfl
  · simp at hc

theorem anchorWindow_no_catalog (flags : Flags) :
    ∀ c ∈ anchorWindow flags, c.isCatalogBuild = false := by
  intro c hc
  unfold anchorWindow at hc
  simp only [List.mem_append] at hc
  rcases hc with hc | hc <;> split at hc <;>
    simp only [List.mem_singleton] at hc <;> subst hc <;> rfl

theorem configureWindow_no_catalog (flags : Flags) :
    ∀ c ∈ configureWindow flags, c.isCatalogBuild = false := by
  intro c hc
  simp only [configureWindow, List.mem_cons, List.mem_singleton, List.not_mem_nil,
    or_false] at hc
  rcases hc with rfl | rfl | rfl | rfl | rfl | rfl | rfl | rfl | rfl | rfl <;> rfl

theorem buildWidgets_no_catalog : ∀ c ∈ buildWidgets, c.isCatalogBuild = false := by
  decide

theorem showAndRun_no_catalog (env : Env) :
    ∀ c ∈ showAndRun env, c.isCatalogBuild = false := by
  intro c hc
  simp only [showAndRun, List.mem_cons, List.mem_singleton, List.not_mem_nil,
    or_false] at hc
  rcases hc with rfl | rfl | rfl | rfl | rfl | rfl | rfl | rfl | rfl <;> rfl

theorem runInterface_no_catalog (env : Env) :
    ∀ c ∈ runInterface env, c.isCatalogBuild = false := by
  intro c hc
  simp only [runInterface, List.mem_append, List.mem_singleton] at hc
  rcases hc with ((((rfl | hc) | hc) | hc) | hc) | hc
  · rfl
  · exact assignMonitor_no_catalog _ c hc
  · exact anchorWindow_no_catalog _ c hc
  · exact configureWindow_no_catalog _ c hc
  · exact buildWidgets_no_catalog c hc
  · exact showAndRun_no_catalog _ c hc

/-! ### The single-instance toggle -/

/-- C3, counterexample: the lock is held and the lock file holds
"not-a-pid"; `main` reads the file, sends no signal at all and exits with
status 0. -/
theorem toggle_staleLock_sends_no_signal :
    Env.staleLock.flags.displayVersion = false ∧ Env.staleLock.lockCreated = false ∧
    Env.staleLock.lockFileContent = some "not-a-pid" ∧
    (main Env.staleLock).trace =
      [Call.timeNow, Call.flagParse, Call.signalNotify Signal.SIGTERM, Call.goSignalHandler,
       Call.tempDir, Call.createLockFile "/tmp/nwg-panel-plugin-menu.lock",
       Call.readTextFile "/tmp/nwg-panel-plugin-menu.lock", Call.osExit 0] ∧
    (main Env.staleLock).trace.any Call.isKill = false ∧
    (main Env.staleLock).outcome = Outcome.exited 0 := by
  decide

/-- C3, amended: whenever creating the lock file fails, `main` exits with
status 0 as its last call and builds neither the catalog nor the interface;
it sends a signal exactly when the lock file can be read and its content is
an integer `i` for `strconv.Atoi`: then the signal is SIGTERM, sent to
process `i`, right before the exit. -/
theorem toggle_lock_held (env : Env)
    (hv : env.flags.displayVersion = false) (hl : env.lockCreated = false) :
    (main env).outcome = Outcome.exited 0 ∧
    (main env).trace.getLast? = some (Call.osExit 0) ∧
    (∀ c ∈ (main env).trace, c.isCatalogBuild = false ∧ c.isInterface = false) ∧
    (∀ i sig, Call.kill i sig ∈ (main env).trace ↔
      sig = Signal.SIGTERM ∧
      ∃ content, env.lockFileContent = some content ∧ strconv.Atoi content = some i) ∧
    (∀ content i, env.lockFileContent = some content → strconv.Atoi content = some i →
      ∃ pre, (main env).trace = pre ++ [Call.kill i Signal.SIGTERM, Call.osExit 0] ∧
        pre.any Call.isKill = false) := by
  rw [main_of_lockHeld env hv hl]
  refine ⟨rfl, ?_, ?_, ?_, ?_⟩
  · cases hcont : env.lockFileContent with
    | none => simp [toggleRunning, startUp, hcont]
    | some content =>
      cases ha : strconv.Atoi content with
      | none => simp [toggleRunning, startUp, hcont, ha]
      | some i => simp [toggleRunning, startUp, hcont, ha]
  · intro c hc
    rcases List.mem_append.mp hc with h | h
    · exact startUp_plain env c h
    · exact toggleRunning_plain env c h
  · intro i sig
    cases hcont : env.lockFileContent with
    | none => simp [toggleRunning, startUp, hcont]
    | some content =>
      cases ha : strconv.Atoi content with
      | none => simp [toggleRunning, startUp, hcont, ha]
      | some j =>
        simp only [toggleRunning, startUp, hcont, ha, List.mem_append, List.mem_cons,
          List.mem_singleton, List.not_mem_nil, or_false, reduceCtorEq, false_or, or_false,
          Call.kill.injEq, Option.some.injEq, exists_eq_left']
        constructor
        · rintro ⟨rfl, rfl⟩
          exact ⟨rfl, rfl⟩
        · rintro ⟨rfl, rfl⟩
          exact ⟨rfl, rfl⟩
  · intro content i hcont ha
    refine ⟨startUp env ++ [Call.readTextFile (lockFilePath env),
      Call.println "Running instance found, sending SIGTERM and exiting..."], ?_, ?_⟩
    · simp [toggleRunning, hcont, ha]
    · simp [startUp, Call.isKill]

/-- Witness for C3 (amended): the lock is held and the lock file holds
"4711". -/
theorem toggle_lock_held_witness :
    (main Env.heldLock).outcome = Outcome.exited 0 ∧
    Call.kill 4711 Signal.SIGTERM ∈ (main Env.heldLock).trace :=
  have h := toggle_lock_held Env.heldLock (by decide) (by decide)
  ⟨h.1, (h.2.2.2.1 4711 Signal.SIGTERM).mpr ⟨rfl, "4711", by decide, by decide⟩⟩

/-! ### The catalog build precedes the interface -/

theorem filter_catalog_of_split (files : List String) (text : String)
    (pre post tr : List Call)
    (htr : tr = pre ++ [Call.listDesktopFiles, Call.println text,
      Call.parseDesktopFiles files, Call.gtkInit] ++ post)
    (hpre : ∀ c ∈ pre, c.isCatalogBuild = false ∧ c.isInterface = false)
    (hpost : ∀ c ∈ post, c.isCatalogBuild = false) :
    tr.filter Call.isCatalogBuild = [Call.listDesktopFiles, Call.parseDesktopFiles files] := by
  have h1 : pre.filter Call.isCatalogBuild = [] :=
    List.filter_eq_nil_iff.mpr (fun c hc => by simp [(hpre c hc).1])
  have h2 : post.filter Call.isCatalogBuild = [] :=
    List.filter_eq_nil_iff.mpr (fun c hc => by simp [hpost c hc])
  rw [htr, List.filter_append, List.filter_append, h1, h2]
  simp [List.filter, Call.isCatalogBuild]

theorem gtkInit_mem_trace (env : Env) (h : Call.gtkInit ∈ (main env).trace) :
    env.flags.displayVersion = false ∧ env.lockCreated = true ∧ env.cacheDir ≠ "" := by
  cases hv : env.flags.displayVersion with
  | true => simp [main, hv] at h
  | false =>
    cases hl : env.lockCreated with
    | false =>
      rw [main_of_lockHeld env hv hl] at h
      rcases List.mem_append.mp h with h1 | h1
      · exact absurd (startUp_plain env _ h1).2 (by decide)
      · exact absurd (toggleRunning_plain env _ h1).2 (by decide)
    | true =>
      by_cases hc : env.cacheDir = ""
      · rw [main_of_noCache env hv hl hc] at h
        rcases List.mem_append.mp h with h1 | h1
        · exact absurd (upToCacheDir_plain env _ _ h1).2 (by decide)
        · simp at h1
      · exact ⟨rfl, rfl, hc⟩

/-- C4: in every run of `main` that reaches the interface (calls
`gtk.Init`), the calls of `main` are: calls that neither build the catalog nor
touch the interface, then `listDesktopFiles`, the report of the number of
files, `parseDesktopFiles` on the files just listed, then `gtk.Init`, then
calls none of which builds the catalog; `gtk.Main`, when reached, is among
the latter.  So the catalog is built exactly once, in `main` itself, before
the first interface step, and never rebuilt. -/
theorem catalog_built_once_before_interface (env : Env)
    (h : Call.gtkInit ∈ (main env).trace) :
    ∃ pre post,
      (main env).trace =
        pre ++
          [Call.listDesktopFiles,
           Call.println ("Found " ++ toString env.desktopFiles.length ++ " desktop files"),
           Call.parseDesktopFiles env.desktopFiles,
           Call.gtkInit] ++ post ∧
      (∀ c ∈ pre, c.isCatalogBuild = false ∧ c.isInterface = false) ∧
      (∀ c ∈ post, c.isCatalogBuild = false) ∧
      ((main env).outcome = Outcome.returned → Call.gtkMain ∈ post) ∧
      (main env).trace.filter Call.isCatalogBuild =
        [Call.listDesktopFiles, Call.parseDesktopFiles env.desktopFiles] := by
  obtain ⟨hv, hl, hc⟩ := gtkInit_mem_trace env h
  have hpre : ∀ c ∈ upToCacheDir env (effectiveLang env.flags.lang env.envLANG) ++
      [Call.getAppDirs, Call.setUpCategories],
      c.isCatalogBuild = false ∧ c.isInterface = false := by
    intro c hc
    rcases List.mem_append.mp hc with h1 | h1
    · exact upToCacheDir_plain env _ c h1
    · simp only [List.mem_cons, List.mem_singleton, List.not_mem_nil, or_false] at h1
      rcases h1 with rfl | rfl <;> exact ⟨rfl, rfl⟩
  cases hw : env.windowCreated with
  | false =>
    have hpost : ∀ c ∈ loadCss env (filepath.Join [env.configDir, env.flags.cssFileName]) ++
        [Call.gtkWindowNew, Call.logFatal "Unable to create window:"],
        c.isCatalogBuild = false := by
      intro c hc
      rcases List.mem_append.mp hc with h1 | h1
      · exact loadCss_no_catalog _ _ c h1
      · simp only [List.mem_cons, List.mem_singleton, List.not_mem_nil, or_false] at h1
        rcases h1 with rfl | rfl <;> rfl
    have heq : (main env).trace =
        (upToCacheDir env (effectiveLang env.flags.lang env.envLANG) ++
          [Call.getAppDirs, Call.setUpCategories]) ++ [Call.listDesktopFiles,
        Call.println ("Found " ++ toString env.desktopFiles.length ++ " desktop files"),
        Call.parseDesktopFiles env.desktopFiles, Call.gtkInit] ++
        (loadCss env (filepath.Join [env.configDir, env.flags.cssFileName]) ++
        [Call.gtkWindowNew, Call.logFatal "Unable to create window:"]) := by
      rw [main_of_noWindow env hv hl hc hw]
      simp [buildCatalog, openInterface]
    refine ⟨_, _, heq, hpre, hpost, ?_, filter_catalog_of_split _ _ _ _ _ heq hpre hpost⟩
    intro hret
    rw [main_of_noWindow env hv hl hc hw] at hret
    simp at hret
  | true =>
    have hpost : ∀ c ∈ loadCss env (filepath.Join [env.configDir, env.flags.cssFileName]) ++
        [Call.gtkWindowNew] ++ runInterface env ++ [Call.lockFileClose],
        c.isCatalogBuild = false := by
      intro c hc
      simp only [List.mem_append, List.mem_singleton] at hc
      rcases hc with ((h1 | rfl) | h1) | rfl
      · exact loadCss_no_catalog _ _ c h1
      · rfl
      · exact runInterface_no_catalog _ c h1
      · rfl
    have heq : (main env).trace =
        (upToCacheDir env (effectiveLang env.flags.lang env.envLANG) ++
          [Call.getAppDirs, Call.setUpCategories]) ++ [Call.listDesktopFiles,
        Call.println ("Found " ++ toString env.desktopFiles.length ++ " desktop files"),
        Call.parseDesktopFiles env.desktopFiles, Call.gtkInit] ++
        (loadCss env (filepath.Join [env.configDir, env.flags.cssFileName]) ++
        [Call.gtkWindowNew] ++ runInterface env ++ [Call.lockFileClose]) := by
      rw [main_of_window env hv hl hc hw]
      simp [buildCatalog, openInterface]
    refine ⟨_, _, heq, hpre, hpost, ?_, filter_catalog_of_split _ _ _ _ _ heq hpre hpost⟩
    intro _
    simp [runInterface, showAndRun]

/-- Witness for C4: the sample environment reaches the interface. -/
theorem catalog_built_once_before_interface_witness :
    Call.gtkInit ∈ (main Env.sample).trace ∧
    (main Env.sample).trace.filter Call.isCatalogBuild =
      [Call.listDesktopFiles, Call.parseDesktopFiles Env.sample.desktopFiles] :=
  ⟨by decide,
   by
    obtain ⟨pre, post, _, _, _, _, h⟩ :=
      catalog_built_once_before_interface Env.sample (by decide)
    exact h⟩

/-! ### Window anchoring -/

theorem anchorCalls_append (a b : List Call) :
    anchorCalls (a ++ b) = anchorCalls a ++ anchorCalls b := by
  simp [anchorCalls, List.filterMap_append]

theorem anchorCalls_langCalls (env : Env) : anchorCalls (langCalls env) = [] := by
  unfold langCalls
  split
  · split <;> rfl
  · rfl

theorem anchorCalls_upToCacheDir (env : Env) (lang : String) :
    anchorCalls (upToCacheDir env lang) = [] := by
  unfold upToCacheDir
  rw [anchorCalls_append, anchorCalls_append, anchorCalls_langCalls]
  rfl

theorem anchorCalls_openInterface (env : Env) (cssFile : String) :
    anchorCalls (openInterface env cssFile) = [] := by
  unfold openInterface loadCss
  cases env.cssLoadError <;> rfl

theorem anchorCalls_assignMonitor (env : Env) : anchorCalls (assignMonitor env) = [] := by
  unfold assignMonitor
  split
  · cases env.outputs <;> rfl
  · rfl

theorem anchorCalls_anchorWindow (flags : Flags) :
    anchorCalls (anchorWindow flags) =
      [(if flags.valign = "bottom" then Edge.BOTTOM else Edge.TOP, true),
       (if flags.halign = "left" then Edge.LEFT else Edge.RIGHT, true)] := by
  unfold anchorWindow
  split <;> split <;> rfl

theorem anchorCalls_main (env : Env) (h : (main env).outcome = Outcome.returned) :
    anchorCalls (main env).trace =
      [(if env.flags.valign = "bottom" then Edge.BOTTOM else Edge.TOP, true),
       (if env.flags.halign = "left" then Edge.LEFT else Edge.RIGHT, true)] := by
  obtain ⟨hv, hl, hc, hw⟩ := main_outcome_returned env h
  rw [main_of_window env hv hl hc hw]
  simp only [runInterface, anchorCalls_append, anchorCalls_upToCacheDir,
    anchorCalls_openInterface, anchorCalls_assignMonitor, anchorCalls_anchorWindow,
    List.nil_append, List.append_nil]
  have h1 : anchorCalls (buildCatalog env) = [] := rfl
  have h2 : anchorCalls [Call.layershellInitForWindow] = [] := rfl
  have h3 : anchorCalls (configureWindow env.flags) = [] := rfl
  have h4 : anchorCalls buildWidgets = [] := rfl
  have h5 : anchorCalls (showAndRun env) = [] := rfl
  have h6 : anchorCalls [Call.lockFileClose] = [] := rfl
  rw [h1, h2, h3, h4, h5, h6]
  rfl

theorem foldl_applyAnchor (tr : List Call) (init : Edge → Bool) :
    tr.foldl applyAnchor init =
      (anchorCalls tr).foldl (fun a p => fun e => if e = p.1 then p.2 else a e) init := by
  induction tr generalizing init with
  | nil => rfl
  | cons c cs ih =>
    cases c <;> simp [anchorCalls, applyAnchor, List.filterMap_cons, ih]

/-- C7: in every run of `main` that sets the window up, the anchoring calls
are exactly two, one for a vertical and one for a horizontal edge; the window
ends up anchored to BOTTOM if and only if `-va` is "bottom" and to TOP
otherwise, to LEFT if and only if `-ha` is "left" and to RIGHT otherwise. -/
theorem window_anchoring (env : Env) (h : (main env).outcome = Outcome.returned) :
    anchorCalls (main env).trace =
      [(if env.flags.valign = "bottom" then Edge.BOTTOM else Edge.TOP, true),
       (if env.flags.halign = "left" then Edge.LEFT else Edge.RIGHT, true)] ∧
    (anchoredEdges (main env).trace Edge.BOTTOM = true ↔ env.flags.valign = "bottom") ∧
    (anchoredEdges (main env).trace Edge.TOP = true ↔ env.flags.valign ≠ "bottom") ∧
    (anchoredEdges (main env).trace Edge.LEFT = true ↔ env.flags.halign = "left") ∧
    (anchoredEdges (main env).trace Edge.RIGHT = true ↔ env.flags.halign ≠ "left") := by
  have hcalls := anchorCalls_main env h
  refine ⟨hcalls, ?_⟩
  unfold anchoredEdges
  rw [foldl_applyAnchor, hcalls]
  by_cases hva : env.flags.valign = "bottom" <;> by_cases hha : env.flags.halign = "left" <;>
    simp [hva, hha]

/-- Witness for C7: the default flags anchor the window bottom-left, the
flags `-va top -ha right` anchor it top-right. -/
theorem window_anchoring_witness :
    anchorCalls (main Env.sample).trace = [(Edge.BOTTOM, true), (Edge.LEFT, true)] ∧
    anchorCalls (main Env.topRight).trace = [(Edge.TOP, true), (Edge.RIGHT, true)] :=
  ⟨(window_anchoring Env.sample (by decide)).1, (window_anchoring Env.topRight (by decide)).1⟩

/-! ### The Escape key -/

/-- C8: an Escape release calls `gtk.MainQuit` if and only if the search text
is empty; with a non-empty search text it clears the search result, gives the
focus to the search entry and sets its text to "" without quitting.  So from
any search text the second of two consecutive Escape releases, at the latest,
quits. -/
theorem escape_key (st : MenuState) :
    (Call.gtkMainQuit ∈ (keyReleaseEvent KEY_Escape st).2 ↔ st.searchText = "") ∧
    ((keyReleaseEvent KEY_Escape st).1.quit = true ↔ st.quit = true ∨ st.searchText = "") ∧
    (st.searchText ≠ "" →
      (keyReleaseEvent KEY_Escape st).2 =
        [Call.widget "searchEntry" "GetText" "", Call.clearSearchResult,
         Call.widget "searchEntry" "GrabFocus" "", Call.widget "searchEntry" "SetText" ""] ∧
      (keyReleaseEvent KEY_Escape st).1 = { searchText := "", quit := st.quit }) ∧
    (Call.gtkMainQuit ∈ (keyReleaseEvent KEY_Escape st).2 ∨
      Call.gtkMainQuit ∈
        (keyReleaseEvent KEY_Escape (keyReleaseEvent KEY_Escape st).1).2) ∧
    Call.gtkMainQuit ∈ (keyReleases [KEY_Escape, KEY_Escape] st).2 ∧
    (keyReleases [KEY_Escape, KEY_Escape] st).1.quit = true := by
  by_cases hs : st.searchText = ""
  · simp [keyReleaseEvent, keyReleases, hs]
  · simp [keyReleaseEvent, keyReleases, hs]

/-- Witness for C8: with the search text "fire" the first Escape release
clears the search, the second quits. -/
theorem escape_key_witness :
    (keyReleaseEvent KEY_Escape { searchText := "fire", quit := false }).1 =
      { searchText := "", quit := false } ∧
    Call.gtkMainQuit ∈ (keyReleases [KEY_Escape, KEY_Escape]
      { searchText := "fire", quit := false }).2 :=
  ⟨((escape_key { searchText := "fire", quit := false }).2.2.1 (by decide)).2,
   (escape_key { searchText := "fire", quit := false }).2.2.2.2.1⟩

/-! ### The pinned cache file -/

namespace filepath

theorem cleanLoop_nil (rooted : Bool) (fuel : Nat) (out : List Char) (dotdot : Nat) :
    cleanLoop rooted fuel [] out dotdot = out := by
  cases fuel <;> rfl

theorem takeWhile_plain (name : List Char) (h : ∀ c ∈ name, IsPathSeparator c = false) :
    name.takeWhile (fun b => !IsPathSeparator b) = name := by
  apply List.takeWhile_eq_self_iff.mpr
  intro x hx
  simp [h x hx]

theorem dropWhile_plain (name : List Char) (h : ∀ c ∈ name, IsPathSeparator c = false) :
    name.dropWhile (fun b => !IsPathSeparator b) = [] := by
  apply List.dropWhile_eq_nil_iff.mpr
  intro x hx
  simp [h x hx]

theorem cleanLoop_plain (rooted : Bool) (name : List Char) (hn : IsPlainElement name)
    (fuel : Nat) (out : List Char) (dotdot : Nat) (hf : name.length ≤ fuel) :
    cleanLoop rooted fuel name out dotdot =
      name.reverse ++
        (if rooted && out.length != 1 || !rooted && out.length != 0 then Separator :: out
         else out) := by
  obtain ⟨h1, h2, h3, h4⟩ := hn
  cases fuel with
  | zero =>
    cases name with
    | nil => exact absurd rfl h1
    | cons c rest => simp at hf
  | succ k =>
    cases name with
    | nil => exact absurd rfl h1
    | cons c rest =>
      have hc : IsPathSeparator c = false := h2 c (List.mem_cons_self _ _)
      have hrest : ∀ x ∈ rest, IsPathSeparator x = false :=
        fun x hx => h2 x (List.mem_cons_of_mem _ hx)
      have hdot : (c == '.' && (rest.isEmpty ||
          (rest.head?.map IsPathSeparator).getD false)) = false := by
        cases rest with
        | nil =>
          have : c ≠ '.' := fun hcd => h3 (by rw [hcd])
          simp [this]
        | cons d rest2 =>
          simp [hrest d (List.mem_cons_self _ _)]
      have hdotdot : (c == '.' && rest.head? == some '.' &&
          (rest.tail.isEmpty || (rest.tail.head?.map IsPathSeparator).getD false)) = false := by
        cases rest with
        | nil => simp
        | cons d rest2 =>
          cases rest2 with
          | nil =>
            have : ¬ (c = '.' ∧ d = '.') := fun hcd => h4 (by rw [hcd.1, hcd.2])
            simp only [List.head?_cons, List.tail_cons, List.isEmpty_nil, Bool.true_or,
              Bool.and_true, Bool.and_eq_false_imp, beq_iff_eq, Option.some.injEq]
            intro hcc
            simpa using fun hd => this ⟨hcc, hd⟩
          | cons e rest3 =>
            have he : IsPathSeparator e = false :=
              hrest e (List.mem_cons_of_mem _ (List.mem_cons_self _ _))
            simp [he]
      rw [cleanLoop]
      simp only [hc, hdot, hdotdot, Bool.false_eq_true, if_false]
      rw [takeWhile_plain _ h2, dropWhile_plain _ h2, cleanLoop_nil]

theorem getLast_append_of_getLast (a out : List Char) (x : Char)
    (h : out.getLast? = some x) : (a ++ out).getLast? = some x := by
  have hne : out ≠ [] := by
    rintro rfl
    simp at h
  rw [List.getLast?_append_of_ne_nil _ hne, h]

theorem backtrack_getLast (dotdot : Nat) (hd : 1 ≤ dotdot) (out : List Char)
    (h : out.length > dotdot) : (backtrack dotdot out).getLast? = out.getLast? := by
  induction out with
  | nil => simp at h
  | cons c rest ih =>
    have hrest : rest ≠ [] := by
      rintro rfl
      simp at h
      omega
    have hlast : (c :: rest).getLast? = rest.getLast? := by
      cases rest with
      | nil => exact absurd rfl hrest
      | cons d r => simp [List.getLast?_cons_cons]
    rw [hlast, backtrack]
    split
    · rename_i hcond
      simp only [Bool.and_eq_true, decide_eq_true_eq] at hcond
      exact ih hcond.1
    · rfl

theorem dropWhile_append_sep (p name : List Char) :
    (p ++ Separator :: name).dropWhile (fun b => !IsPathSeparator b) =
      p.dropWhile (fun b => !IsPathSeparator b) ++ Separator :: name := by
  induction p with
  | nil => simp [List.dropWhile, IsPathSeparator]
  | cons c rest ih =>
    by_cases hc : IsPathSeparator c = true
    · simp [List.dropWhile, hc]
    · simp only [Bool.not_eq_true] at hc
      simp [List.dropWhile, hc, ih]

theorem cleanLoop_last_element (rooted : Bool) (name : List Char) (hn : IsPlainElement name)
    (fuel : Nat) (p out : List Char) (dotdot : Nat)
    (hf : (p ++ Separator :: name).length ≤ fuel) (hinv : RootKept rooted out dotdot) :
    ∃ pre, cleanLoop rooted fuel (p ++ Separator :: name) out dotdot = name.reverse ++ pre ∧
      (pre = [] ∨ pre.head? = some Separator) := by
  induction fuel generalizing p out dotdot with
  | zero => simp at hf
  | succ k ih =>
    cases p with
    | nil =>
      have hsep : IsPathSeparator Separator = true := by decide
      simp only [List.nil_append, List.length_cons] at hf
      rw [List.nil_append, cleanLoop]
      simp only [hsep, if_true]
      rw [cleanLoop_plain rooted name hn k out dotdot (by omega)]
      refine ⟨_, rfl, ?_⟩
      split
      · right; rfl
      · rename_i hcond
        cases rooted with
        | true =>
          obtain ⟨-, hlast⟩ := hinv rfl
          have hlen : out.length = 1 := by simpa using hcond
          match out, hlen, hlast with
          | [c], _, hlast =>
            simp at hlast
            right
            simp [hlast]
        | false =>
          have hlen : out.length = 0 := by simpa using hcond
          left
          exact List.length_eq_zero.mp hlen
    | cons c rest =>
      simp only [List.cons_append, List.length_cons] at hf
      rw [List.cons_append, cleanLoop]
      simp only []
      split
      · exact ih rest out dotdot (by simpa using hf) hinv
      · rename_i hc
        simp only [Bool.not_eq_true] at hc
        split
        · exact ih rest out dotdot (by simpa using hf) hinv
        · split
          · rename_i hdd
            -- the `..` element: `rest` starts with a dot
            cases rest with
            | nil => simp [Separator] at hdd
            | cons d rest2 =>
              simp only [List.cons_append, List.tail_cons]
              have hlen : (rest2 ++ Separator :: name).length ≤ k := by
                simp only [List.length_cons, List.length_append] at hf ⊢
                omega
              split
              · rename_i hw
                apply ih rest2 _ dotdot hlen
                intro hr
                obtain ⟨hd1, hlast⟩ := hinv hr
                exact ⟨hd1, by rw [backtrack_getLast dotdot (by omega) out hw]; exact hlast⟩
              · split
                · rename_i hr
                  apply ih rest2 _ _ hlen
                  intro hr2
                  simp [hr2] at hr
                · exact ih rest2 out dotdot hlen hinv
          · -- a real path element
            have hdrop : (c :: (rest ++ Separator :: name)).dropWhile
                (fun b => !IsPathSeparator b) =
                rest.dropWhile (fun b => !IsPathSeparator b) ++ Separator :: name := by
              rw [List.dropWhile_cons]
              simp only [hc, Bool.not_false, if_true]
              exact dropWhile_append_sep rest name
            rw [hdrop]
            apply ih
            · have := (List.dropWhile_sublist
                (fun b => !IsPathSeparator b) (l := rest)).length_le
              simp only [List.length_cons, List.length_append] at hf ⊢
              omega
            · intro hr
              obtain ⟨hd1, hlast⟩ := hinv hr
              refine ⟨hd1, ?_⟩
              apply getLast_append_of_getLast
              split
              · exact getLast_append_of_getLast [Separator] out _ hlast
              · exact hlast

theorem Base_of_cleaned (name pre : List Char) (hn : IsPlainElement name)
    (hpre : pre = [] ∨ pre.head? = some Separator) :
    Base (String.mk ((name.reverse ++ pre).reverse)) = String.mk name := by
  obtain ⟨h1, h2, -, -⟩ := hn
  have hrev : ∀ c ∈ name.reverse, IsPathSeparator c = false :=
    fun c hc => h2 c (List.mem_reverse.mp hc)
  have hne : name.reverse ≠ [] := by simpa using h1
  have hpath : String.mk ((name.reverse ++ pre).reverse) ≠ "" := by
    intro h
    have := congrArg String.data h
    simp at this
    exact h1 this.2
  unfold Base
  simp only [hpath, if_false, List.reverse_reverse]
  have hstrip : (name.reverse ++ pre).dropWhile IsPathSeparator = name.reverse ++ pre := by
    cases hr : name.reverse with
    | nil => exact absurd hr hne
    | cons c rest =>
      have hc : IsPathSeparator c = false := hrev c (by rw [hr]; exact List.mem_cons_self _ _)
      simp [List.dropWhile, hc]
  have htake : (name.reverse ++ pre).takeWhile (fun b => !IsPathSeparator b) =
      name.reverse := by
    rw [List.takeWhile_append, takeWhile_plain _ hrev]
    simp only [if_true]
    rcases hpre with rfl | hp
    · simp
    · cases pre with
      | nil => simp
      | cons c rest =>
        simp only [List.head?_cons, Option.some.injEq] at hp
        subst hp
        simp [List.takeWhile, IsPathSeparator]
  rw [hstrip, htake]
  simp [h1]

theorem data_append_slash (d name : String) :
    (joinSlash [d, name]).data = d.data ++ Separator :: name.data := by
  simp [joinSlash, String.data_append, Separator]

theorem Base_Join_plain (d name : String) (hd : d ≠ "") (hn : IsPlainElement name.data) :
    Base (Join [d, name]) = name := by
  have hclean : ∃ pre, cleanChars (joinSlash [d, name]).data = (name.data.reverse ++ pre).reverse ∧
      (pre = [] ∨ pre.head? = some Separator) := by
    rw [data_append_slash]
    cases hdd : d.data with
    | nil =>
      exfalso
      apply hd
      cases d
      simp_all
    | cons c rest =>
      have hlenpos : ∀ pre : List Char, (name.data.reverse ++ pre).length ≠ 0 := by
        intro pre
        have := hn.1
        cases hnd : name.data with
        | nil => exact absurd hnd this
        | cons x xs => simp
      unfold cleanChars
      simp only [List.cons_append]
      cases hroot : IsPathSeparator c with
      | true =>
        obtain ⟨pre, hpre, hhead⟩ := cleanLoop_last_element true name.data hn
          (rest ++ Separator :: name.data).length rest [Separator] 1 (le_refl _)
          (fun _ => ⟨rfl, rfl⟩)
        refine ⟨pre, ?_, hhead⟩
        simp only [if_true, hpre, hlenpos pre, if_false]
      | false =>
        obtain ⟨pre, hpre, hhead⟩ := cleanLoop_last_element false name.data hn
          (c :: rest ++ Separator :: name.data).length (c :: rest) [] 0 (le_refl _)
          (fun h => by simp at h)
        refine ⟨pre, ?_, hhead⟩
        simp only [Bool.false_eq_true, if_false]
        rw [List.cons_append] at hpre
        simp only [hpre, hlenpos pre, if_false]
  obtain ⟨pre, hpre, hhead⟩ := hclean
  have hjoin : Join [d, name] = String.mk ((name.data.reverse ++ pre).reverse) := by
    simp only [Join, hd, ne_eq, not_false_eq_true, if_true, Clean, hpre]
  rw [hjoin, Base_of_cleaned name.data pre hn hhead]

theorem nwg_pin_cache_plain : IsPlainElement "nwg-pin-cache".data := by
  refine ⟨by decide, by decide, by decide, by decide⟩

end filepath

theorem runInterface_no_logPanic (env : Env) (text : String) :
    Call.logPanic text ∉ runInterface env := by
  intro hmem
  unfold runInterface assignMonitor anchorWindow configureWindow buildWidgets showAndRun at hmem
  by_cases h1 : env.flags.targetOutput = "" <;> by_cases h2 : env.flags.valign = "bottom" <;>
    by_cases h3 : env.flags.halign = "left" <;> cases h4 : env.outputs <;>
    simp [h1, h2, h3, h4] at hmem

/-- C6: in a run of `main` that gets to the call of `cacheDir`, for a
non-empty result `d` the variable `pinnedFile` is
`filepath.Join(d, "nwg-pin-cache")`, a path whose last element
(`filepath.Base`) is "nwg-pin-cache"; and `main` ends in `log.Panic`, with
`pinnedFile` still unset and no call of the catalog build made, if and only
if `cacheDir` returned the empty string. -/
theorem pinned_cache_file (env : Env)
    (hv : env.flags.displayVersion = false) (hl : env.lockCreated = true) :
    (env.cacheDir ≠ "" →
      (main env).pinnedFile = filepath.Join [env.cacheDir, "nwg-pin-cache"] ∧
      filepath.Base (main env).pinnedFile = "nwg-pin-cache") ∧
    ((main env).outcome = Outcome.logPanicked ↔ env.cacheDir = "") ∧
    ((∃ text, Call.logPanic text ∈ (main env).trace) ↔ env.cacheDir = "") ∧
    (env.cacheDir = "" →
      (main env).pinnedFile = "" ∧
      (∀ c ∈ (main env).trace, c.isCatalogBuild = false ∧ c.isInterface = false) ∧
      (main env).trace.getLast? = some Call.lockFileClose) := by
  by_cases hc : env.cacheDir = ""
  · rw [main_of_noCache env hv hl hc]
    refine ⟨fun h => absurd hc h, by simp [hc], ?_, fun _ => ⟨rfl, ?_, by simp⟩⟩
    · simp only [hc, iff_true]
      exact ⟨"Couldn't determine cache directory location", by simp⟩
    · intro c hmem
      rcases List.mem_append.mp hmem with h1 | h1
      · exact upToCacheDir_plain env _ c h1
      · simp only [List.mem_cons, List.mem_singleton, List.not_mem_nil, or_false] at h1
        rcases h1 with rfl | rfl <;> exact ⟨rfl, rfl⟩
  · have hpin : ∀ w, env.windowCreated = w →
        (main env).pinnedFile = filepath.Join [env.cacheDir, "nwg-pin-cache"] ∧
        (main env).outcome ≠ Outcome.logPanicked ∧
        ∀ text, Call.logPanic text ∉ (main env).trace := by
      have hopen : ∀ text f, Call.logPanic text ∉ openInterface env f := by
        intro text f hmem
        unfold openInterface loadCss at hmem
        cases hcss : env.cssLoadError <;> simp [hcss] at hmem
      have hup : ∀ text, Call.logPanic text ∉ upToCacheDir env
          (effectiveLang env.flags.lang env.envLANG) := by
        intro text hmem
        unfold upToCacheDir langCalls startUp at hmem
        by_cases h1 : env.flags.lang = "" <;> by_cases h2 : env.envLANG = "" <;>
          simp [h1, h2] at hmem
      intro w hw
      cases w with
      | false =>
        rw [main_of_noWindow env hv hl hc hw]
        refine ⟨rfl, by simp, ?_⟩
        intro text hmem
        simp only [List.mem_append, List.mem_singleton, reduceCtorEq, or_false] at hmem
        rcases hmem with (h1 | h1) | h1
        · exact hup text h1
        · simp [buildCatalog] at h1
        · exact hopen text _ h1
      | true =>
        rw [main_of_window env hv hl hc hw]
        refine ⟨rfl, by simp, ?_⟩
        intro text hmem
        simp only [List.mem_append, List.mem_singleton, reduceCtorEq, or_false] at hmem
        rcases hmem with ((h1 | h1) | h1) | h1
        · exact hup text h1
        · simp [buildCatalog] at h1
        · exact hopen text _ h1
        · exact runInterface_no_logPanic env text h1
    obtain ⟨h1, h2, h3⟩ := hpin env.windowCreated rfl
    refine ⟨fun _ => ⟨h1, ?_⟩, by simp [hc, h2], ?_, fun h => absurd h hc⟩
    · rw [h1]
      exact filepath.Base_Join_plain env.cacheDir "nwg-pin-cache" hc filepath.nwg_pin_cache_plain
    · simp only [hc, iff_false, not_exists]
      exact h3

/-- Witness for C6: the sample environment (cache directory
`/home/u/.cache`) and one without a cache directory. -/
theorem pinned_cache_file_witness :
    (main Env.sample).pinnedFile = "/home/u/.cache/nwg-pin-cache" ∧
    (main Env.noCache).outcome = Outcome.logPanicked :=
  ⟨((pinned_cache_file Env.sample (by decide) (by decide)).1 (by decide)).1.trans (by decide),
   (pinned_cache_file Env.noCache (by decide) (by decide)).2.1.mpr (by decide)⟩

/-! ### Category totality -/

theorem Catalog.append_list (cat : Catalog) (c : Category) (id : String) (c2 : Category) :
    (cat.append c id).list c2 = if c2 = c then cat.list c2 ++ [id] else cat.list c2 := by
  cases c <;> cases c2 <;> simp [Catalog.append, Catalog.list]

theorem Catalog.append_desktopEntries (cat : Catalog) (c : Category) (id : String) :
    (cat.append c id).desktopEntries = cat.desktopEntries := by
  cases c <;> rfl

theorem foldl_addDesktopFile (idOf : String → String)
    (parse : String → Option (desktopEntry × List String))
    (table : List (String × Category)) (files : List String) (cat : Catalog) :
    (∀ c, ((files.foldl (addDesktopFile idOf parse table) cat).list c) =
      cat.list c ++ idsOf idOf parse table c files) ∧
    (files.foldl (addDesktopFile idOf parse table) cat).desktopEntries =
      cat.desktopEntries ++ entriesOf idOf parse files := by
  induction files generalizing cat with
  | nil => simp [idsOf, entriesOf]
  | cons f fs ih =>
    simp only [List.foldl_cons]
    obtain ⟨ih1, ih2⟩ := ih (addDesktopFile idOf parse table cat f)
    cases hp : parse f with
    | none =>
      have hstep : addDesktopFile idOf parse table cat f = cat := by
        simp [addDesktopFile, hp]
      rw [hstep] at ih1 ih2 ⊢
      refine ⟨fun c => ?_, ?_⟩
      · rw [ih1 c]; simp [idsOf, hp]
      · rw [ih2]; simp [entriesOf, hp]
    | some r =>
      obtain ⟨entry, tags⟩ := r
      refine ⟨fun c => ?_, ?_⟩
      · rw [ih1 c]
        simp only [addDesktopFile, hp, Catalog.append_list]
        by_cases hc : c = categorize table tags
        · simp [idsOf, hp, hc]
          cases categorize table tags <;> rfl
        · simp [idsOf, hp, hc]
          cases c <;> rfl
      · rw [ih2]
        simp [addDesktopFile, hp, Catalog.append_desktopEntries, entriesOf]

theorem dedupFirst_spec (idOf : String → String) (fs seen : List String) :
    ((dedupFirst idOf seen fs).map idOf).Nodup ∧
    ∀ f ∈ dedupFirst idOf seen fs, idOf f ∉ seen ∧ f ∈ fs := by
  induction fs generalizing seen with
  | nil => simp [dedupFirst]
  | cons f fs ih =>
    unfold dedupFirst
    split
    · obtain ⟨h1, h2⟩ := ih seen
      exact ⟨h1, fun g hg => ⟨(h2 g hg).1, List.mem_cons_of_mem _ (h2 g hg).2⟩⟩
    · rename_i hf
      obtain ⟨h1, h2⟩ := ih (idOf f :: seen)
      constructor
      · rw [List.map_cons, List.nodup_cons]
        refine ⟨?_, h1⟩
        intro hmem
        obtain ⟨g, hg, hgf⟩ := List.mem_map.mp hmem
        have := (h2 g hg).1
        simp [hgf] at this
      · intro g hg
        rcases List.mem_cons.mp hg with rfl | hg
        · exact ⟨hf, List.mem_cons_self _ _⟩
        · have := (h2 g hg)
          exact ⟨fun hmem => this.1 (List.mem_cons_of_mem _ hmem),
            List.mem_cons_of_mem _ this.2⟩

theorem survivors_nodup (idOf : String → String) (policy : Policy) (files : List String) :
    ((survivors idOf policy files).map idOf).Nodup := by
  cases policy with
  | firstWins => exact (dedupFirst_spec idOf files []).1
  | lastWins =>
    simp only [survivors, List.map_reverse, List.nodup_reverse]
    exact (dedupFirst_spec idOf files.reverse []).1

theorem survivors_subset (idOf : String → String) (policy : Policy) (files : List String) :
    ∀ f ∈ survivors idOf policy files, f ∈ files := by
  intro f hf
  cases policy with
  | firstWins => exact ((dedupFirst_spec idOf files []).2 f hf).2
  | lastWins =>
    simp only [survivors, List.mem_reverse] at hf
    exact List.mem_reverse.mp ((dedupFirst_spec idOf files.reverse []).2 f hf).2

theorem categorize_other (table : List (String × Category)) (tags : List String)
    (h : ∀ rule ∈ table, rule.1 ∉ tags) : categorize table tags = Category.other := by
  unfold categorize
  have : table.find? (fun rule => tags.contains rule.1) = none := by
    apply List.find?_eq_none.mpr
    intro rule hr
    simpa using h rule hr
  rw [this]


theorem mem_idsOf (idOf : String → String)
    (parse : String → Option (desktopEntry × List String))
    (table : List (String × Category)) (c : Category) (files : List String) (id : String) :
    id ∈ idsOf idOf parse table c files ↔
      ∃ file ∈ files, ∃ entry tags, parse file = some (entry, tags) ∧
        c = categorize table tags ∧ idOf file = id := by
  unfold idsOf
  rw [List.mem_filterMap]
  constructor
  · rintro ⟨file, hf, h⟩
    cases hp : parse file with
    | none => simp [hp] at h
    | some r =>
      obtain ⟨entry, tags⟩ := r
      simp only [hp] at h
      split at h
      · rename_i hc
        exact ⟨file, hf, entry, tags, hp, hc, by simpa using h⟩
      · simp at h
  · rintro ⟨file, hf, entry, tags, hp, hc, hid⟩
    exact ⟨file, hf, by simp [hp, hc, hid]⟩

theorem mem_entriesOf (idOf : String → String)
    (parse : String → Option (desktopEntry × List String))
    (files : List String) (e : desktopEntry) (h : e ∈ entriesOf idOf parse files) :
    ∃ file ∈ files, ∃ entry tags, parse file = some (entry, tags) ∧
      e = { entry with DesktopID := idOf file } := by
  unfold entriesOf at h
  obtain ⟨file, hf, h⟩ := List.mem_filterMap.mp h
  cases hp : parse file with
  | none => simp [hp] at h
  | some r =>
    obtain ⟨entry, tags⟩ := r
    simp only [hp, Option.some.injEq] at h
    exact ⟨file, hf, entry, tags, hp, h.symm⟩

theorem parseDesktopFiles_list (idOf : String → String)
    (parse : String → Option (desktopEntry × List String))
    (table : List (String × Category)) (policy : Policy) (files : List String)
    (c : Category) :
    (parseDesktopFiles idOf parse table policy files).list c =
      idsOf idOf parse table c (survivors idOf policy files) := by
  unfold parseDesktopFiles
  rw [(foldl_addDesktopFile idOf parse table _ Catalog.empty).1 c]
  cases c <;> rfl

theorem parseDesktopFiles_entries (idOf : String → String)
    (parse : String → Option (desktopEntry × List String))
    (table : List (String × Category)) (policy : Policy) (files : List String) :
    (parseDesktopFiles idOf parse table policy files).desktopEntries =
      entriesOf idOf parse (survivors idOf policy files) := by
  unfold parseDesktopFiles
  rw [(foldl_addDesktopFile idOf parse table _ Catalog.empty).2]
  rfl

/-- C5: after the catalog build, for every entry of `desktopEntries` exactly
one of the nine per-category lists contains the entry's DesktopID: the list
of the category the Categorizer assigns to the tags of the file the entry was
parsed from; when none of these tags is recognized by the table, that list is
`listOther`.  This holds for every id derivation, parser, table and override
policy. -/
theorem category_totality (idOf : String → String)
    (parse : String → Option (desktopEntry × List String))
    (table : List (String × Category)) (policy : Policy) (desktopFiles : List String)
    (e : desktopEntry)
    (he : e ∈ (parseDesktopFiles idOf parse table policy desktopFiles).desktopEntries) :
    (∃! c : Category,
      e.DesktopID ∈ (parseDesktopFiles idOf parse table policy desktopFiles).list c) ∧
    ∃ file ∈ desktopFiles, ∃ entry tags,
      parse file = some (entry, tags) ∧ e = { entry with DesktopID := idOf file } ∧
      e.DesktopID ∈ (parseDesktopFiles idOf parse table policy desktopFiles).list
        (categorize table tags) ∧
      ((∀ rule ∈ table, rule.1 ∉ tags) →
        e.DesktopID ∈ (parseDesktopFiles idOf parse table policy desktopFiles).listOther) := by
  rw [parseDesktopFiles_entries] at he
  obtain ⟨file, hf, entry, tags, hp, rfl⟩ := mem_entriesOf idOf parse _ e he
  have hmem : idOf file ∈ (parseDesktopFiles idOf parse table policy desktopFiles).list
      (categorize table tags) := by
    rw [parseDesktopFiles_list, mem_idsOf]
    exact ⟨file, hf, entry, tags, hp, rfl, rfl⟩
  refine ⟨⟨categorize table tags, hmem, ?_⟩,
    file, survivors_subset idOf policy desktopFiles file hf, entry, tags, hp, rfl, hmem, ?_⟩
  · intro c hc
    simp only at hc
    rw [parseDesktopFiles_list, mem_idsOf] at hc
    obtain ⟨file2, hf2, entry2, tags2, hp2, hc2, hid⟩ := hc
    have hfile : file2 = file :=
      List.inj_on_of_nodup_map (survivors_nodup idOf policy desktopFiles) hf2 hf hid
    subst hfile
    rw [hp] at hp2
    simp only [Option.some.injEq, Prod.mk.injEq] at hp2
    rw [hc2, ← hp2.2]
  · intro hnone
    have := categorize_other table tags hnone
    rw [this] at hmem
    exact hmem


/-- Witness for C5: in the sample catalog the entry of `xeyes.desktop`, whose
only tag is unknown to the table, is in `listOther` and in no other list. -/
theorem category_totality_witness :
    { sampleEntry "XEyes" "xeyes" with DesktopID := "xeyes.desktop" } ∈
      sampleCatalog.desktopEntries ∧
    ∃! c : Category, "xeyes.desktop" ∈ sampleCatalog.list c :=
  ⟨by decide,
   (category_totality filepath.Base sampleParse sampleTable Policy.firstWins sampleFiles
      { sampleEntry "XEyes" "xeyes" with DesktopID := "xeyes.desktop" } (by decide)).1⟩

end NwgMenu
